/-
Verification of the enum-runtime module (`src/unnamed/part_000`) of the
enum-proposal repository.

The runtime is shallowly embedded: JS numbers are modelled as `ℚ` where
fractional inputs matter and as `Int`/`Nat` where the source only ever
holds integers; `x | 0` (ToInt32) is `int32`; `Map`/`WeakMap` instances
are modelled as `κ → Option β` functions updated exactly as the source's
loops update them (`mapSet`); thrown exceptions are `Except JsErr`.
Each definition cites the source lines it embeds.
-/
import Mathlib

namespace EnumProposal

/-- JS `x | 0`, i.e. ToInt32: wrap an integer into [-2^31, 2^31). -/
def int32 (x : Int) : Int := (x + 2 ^ 31) % 2 ^ 32 - 2 ^ 31

/-- Truncation toward zero of a rational, the first step of ToInt32 on a
finite JS number. -/
def ratTrunc (q : ℚ) : Int := q.num.tdiv (q.den : Int)

/-- ToInt32 on a finite JS number (`value | 0` in the source). -/
def ratToInt32 (q : ℚ) : Int := int32 (ratTrunc q)

/-- JS values, restricted to the shapes the modelled claims exercise. -/
inductive JsVal
  | num (q : ℚ)
  | str (s : String)
  | undefined
deriving DecidableEq, Repr

/-- The exception kinds the runtime throws: `TypeError`, `ReferenceError`
and plain `Error`, each with its message. -/
inductive JsErr
  | typeError (msg : String)
  | referenceError (msg : String)
  | error (msg : String)
deriving DecidableEq, Repr

instance {ε α : Type} [DecidableEq ε] [DecidableEq α] :
    DecidableEq (Except ε α)
  | .ok a, .ok b =>
    if h : a = b then .isTrue (by rw [h]) else .isFalse (by simp [h])
  | .ok _, .error _ => .isFalse (by simp)
  | .error _, .ok _ => .isFalse (by simp)
  | .error a, .error b =>
    if h : a = b then .isTrue (by rw [h]) else .isFalse (by simp [h])

/-- `mapSet(map, k, v)` / `weakSet(map, k, v)`: functional update of a
map modelled as a lookup function. -/
def mapSet {κ β : Type} [DecidableEq κ] (m : κ → Option β) (k : κ) (v : β) :
    κ → Option β :=
  fun x => if x = k then some v else m x

/-- JS array indexing `l[i]` with a possibly negative index: any index
outside the array yields `undefined` (here `none`). -/
def jsListGet {α : Type} (l : List α) (i : Int) : Option α :=
  if 0 ≤ i then l[i.toNat]? else none

/-- The loop body of `initEnum`/`initStringEnum` (lines 130-134 / 172-175):
`for (i...) mapSet(keyMap, values[i], i)`, building the value→position
index.  `i` is threaded explicitly; later writes win, as in a JS `Map`. -/
def keyMapAux {V : Type} [DecidableEq V] :
    List V → Nat → (V → Option Nat) → (V → Option Nat)
  | [], _, m => m
  | v :: rest, i, m => keyMapAux rest (i + 1) (mapSet m v i)

/-- The value→position `keyMap` of `initEnum` (and, with `values := keys`,
the key→position `keyMap` of `initStringEnum`). -/
def keyMapOf {V : Type} [DecidableEq V] (values : List V) : V → Option Nat :=
  keyMapAux values 0 (fun _ => none)

/-- A sequence of `mapSet`/property-assignment writes, in order. -/
def assignProps {κ β : Type} [DecidableEq κ] :
    List (κ × β) → (κ → Option β) → (κ → Option β)
  | [], m => m
  | (k, x) :: rest, m => assignProps rest (mapSet m k x)

/-- The value→name `valueMap` of `initEnum` (line 132:
`mapSet(valueMap, values[i], keys[i])`); the loop runs over the two
equal-length lists in lockstep. -/
def valueMapOf {V : Type} [DecidableEq V] (keys : List String) (values : List V) :
    V → Option String :=
  assignProps (values.zip keys) (fun _ => none)

/-- `indexA - indexB | 0` inside the `compare` helper (line 88), where
`indexB` may be `undefined`: `indexA - undefined` is `NaN` and
`NaN | 0` is `0`. -/
def idxSubInt32 (ia : Nat) : Option Nat → Int
  | some ib => int32 ((ia : Int) - (ib : Int))
  | none => 0

/-- The `compare` closure shared (textually) by `initEnum` (114-120),
`initStringEnum` (156-162) and `initObjectEnum` (318-329): both operands
are looked up, but the guard reads `indexA != null && indexA != null`,
so only the first operand's membership is ever checked; the helper
`compare` (87-89) then clamps `indexA - indexB | 0` into [-1, 1]. -/
def enumCompare {α : Type} (lookup : α → Option Nat) (a b : α) :
    Except JsErr Int :=
  match lookup a with
  | some ia => .ok (max (-1) (min 1 (idxSubInt32 ia (lookup b))))
  | none => .error (.error "Both arguments must be members of this enum!")

/-- `initEnum`'s `getKey` (lines 106-108): `mapGet(keyMap, value)` — it
reads the value→position map, so it returns the member's position. -/
def initEnum_getKey {V : Type} [DecidableEq V] (values : List V) (v : V) :
    Option Nat :=
  keyMapOf values v

/-- `initEnum`'s membership predicate (lines 110-112):
`mapHas(valueMap, value)`. -/
def initEnum_hasInstance {V : Type} [DecidableEq V]
    (keys : List String) (values : List V) (v : V) : Bool :=
  (valueMapOf keys values v).isSome

/-- `initEnum`'s `compare` instantiated with its `keyMap`. -/
def initEnum_compare {V : Type} [DecidableEq V] (values : List V) (a b : V) :
    Except JsErr Int :=
  enumCompare (keyMapOf values) a b

/-- `initStringEnum`'s `getKey` (lines 148-150):
`mapHas(keyMap, value) ? value : void 0`. -/
def initStringEnum_getKey (keys : List String) (v : String) : Option String :=
  if (keyMapOf keys v).isSome then some v else none

/-- `initStringEnum`'s member properties (line 174:
`object[keys[i]] = keys[i]`): each member's stored value is its name. -/
def initStringEnum_memberValue (keys : List String) : String → Option String :=
  assignProps (keys.map fun k => (k, k)) (fun _ => none)

/-- `initNumberEnum`'s `end` (lines 182-184): `offset |= 0`,
`length = keys.length | 0`, `end = length + offset | 0`. -/
def numberEnumEnd (keysLen : Nat) (offset : Int) : Int :=
  int32 (int32 (keysLen : Int) + int32 offset)

/-- `initNumberEnum`'s membership predicate (lines 201-206): for a number
`value`, `index = Math.abs(value | 0)` and the result is
`value === index && index < end` — note there is no `index >= offset`
lower-bound check. -/
def initNumberEnum_hasInstance (keysLen : Nat) (offset : Int) (v : ℚ) : Bool :=
  let index : Int := |ratToInt32 v|
  decide ((v = (index : ℚ))) && decide (index < numberEnumEnd keysLen offset)

/-- `initNumberEnum`'s `getKey` (lines 191-199): on the same range check,
returns `keys[index - offset]` (an out-of-range index reads `undefined`). -/
def initNumberEnum_getKey (keys : List String) (offset : Int) (v : ℚ) :
    Option String :=
  let index : Int := |ratToInt32 v|
  if v = (index : ℚ) ∧ index < numberEnumEnd keys.length offset then
    jsListGet keys (index - int32 offset)
  else none

/-- `initNumberEnum`'s member properties (line 229):
`object[keys[i]] = i` — the offset is not added. -/
def initNumberEnum_memberValue (i : Nat) : ℚ := (i : ℚ)

/-- Property keys of enum objects and of the iterator's own lookup:
string keys plus the three well-known symbols the runtime uses. -/
inductive PropKey
  | str (s : String)
  | symHasInstance
  | symIterator
  | symToStringTag
deriving DecidableEq, Repr

/-- A property descriptor, as manipulated by `installProperties`
(the `value` slot is tracked separately by the per-factory maps). -/
structure PropDesc where
  enumerable : Bool
  writable : Bool
  configurable : Bool
deriving DecidableEq, Repr

/-- The loop of `installProperties` (lines 78-85): for each key, read the
descriptor off the methods object, force `enumerable = false`, and define
it; `getOwnPropertyDescriptor` of an absent key is `undefined`, so
`desc.enumerable = false` then throws a `TypeError`. -/
def installLoop {κ : Type} [DecidableEq κ] (methods : κ → Option PropDesc) :
    List κ → (κ → Option PropDesc) → Except JsErr (κ → Option PropDesc)
  | [], obj => .ok obj
  | k :: rest, obj =>
    match methods k with
    | none =>
      .error (.typeError "Cannot set properties of undefined (setting enumerable)")
    | some d =>
      installLoop methods rest
        (mapSet obj k { d with enumerable := false })

/-- The `keys` argument of `installProperties`: the module passes either a
key array or (at line 33) the literal `false`. -/
inductive InstallKeysArg (κ : Type)
  | falseVal
  | arr (ks : List κ)

/-- `installProperties(object, keys, methods)` (lines 78-85).  When
`keys` is `false` (line 33), `keys.length` is `undefined`, the loop
condition `0 < undefined` is false, and nothing is installed. -/
def installProperties {κ : Type} [DecidableEq κ] (methods : κ → Option PropDesc)
    (keysArg : InstallKeysArg κ) (obj : κ → Option PropDesc) :
    Except JsErr (κ → Option PropDesc) :=
  match keysArg with
  | .falseVal => .ok obj
  | .arr ks => installLoop methods ks obj

/-- `builtinProperties` (lines 91-94) — note it contains `"prototype"`. -/
def builtinProperties : List PropKey :=
  [.str "name", .str "prototype", .str "getKey", .str "compare", .str "keys",
   .str "values", .str "entries", .symHasInstance, .symIterator,
   .symToStringTag]

/-- The own keys of the `methods` object literal of each factory
(lines 101-125, 143-167, 186-224, 303-334): the three symbols plus
`name`, `getKey`, `compare`, `keys`, `values`, `entries` — and no
`"prototype"` property. -/
def enumMethodsOwnKeys : List PropKey :=
  [.symToStringTag, .symIterator, .str "name", .str "getKey",
   .symHasInstance, .str "compare", .str "keys", .str "values",
   .str "entries"]

/-- Descriptor lookup on the factories' `methods` object literal: literal
properties are writable/enumerable/configurable; absent keys give
`undefined`. -/
def enumMethodsDesc (k : PropKey) : Option PropDesc :=
  if k ∈ enumMethodsOwnKeys then
    some { enumerable := true, writable := true, configurable := true }
  else none

/-- The `installProperties(object, builtinProperties, methods)` step every
factory performs (lines 128, 170, 227, 337), starting from the fresh
`objectCreate(null)` object. -/
def initEnumInstallBuiltins : Except JsErr (PropKey → Option PropDesc) :=
  installProperties enumMethodsDesc (.arr builtinProperties) (fun _ => none)

/-- The own properties of `EnumIteratorPrototype` before the
`installProperties` call: only the `Symbol.toStringTag` data property
defined at lines 26-31. -/
def iterProtoBase : PropKey → Option PropDesc := fun k =>
  match k with
  | .symToStringTag => some { enumerable := false, writable := false, configurable := false }
  | _ => none

/-- Descriptor lookup on the `{ next() {...} }` object literal passed to
`installProperties` at lines 33-65. -/
def iterNextMethodsDesc (k : PropKey) : Option PropDesc :=
  match k with
  | .str s =>
    if s = "next" then
      some { enumerable := true, writable := true, configurable := true }
    else none
  | _ => none

/-- The own properties of `EnumIteratorPrototype` after the line-33 call
`installProperties(EnumIteratorPrototype, false, { next() {...} })` —
the `keys` argument is the literal `false`, so the loop never runs. -/
def enumIteratorPrototypeProps : Except JsErr (PropKey → Option PropDesc) :=
  installProperties iterNextMethodsDesc .falseVal iterProtoBase

/-- The result of looking `next` up on an enum iterator object: the
iterator has no own properties, `EnumIteratorPrototype` holds whatever
the line-33 install produced, and neither `%IteratorPrototype%` nor
`Object.prototype` further up the chain defines `next`. -/
def iterNextLookup : Option PropDesc :=
  match enumIteratorPrototypeProps with
  | .ok props => props (.str "next")
  | .error _ => none

/-- Values an enum iterator can yield: array elements (names), numeric
cursors, and `[a, b]` entry pairs. -/
inductive IterVal
  | undefined
  | num (n : Nat)
  | str (s : String)
  | pair (a b : IterVal)
deriving DecidableEq, Repr

/-- A `slot1`/`slot2` of the iterator data record: `void 0`, a numeric
cursor, or a backing array. -/
inductive IterSlot
  | undefined
  | counter (n : Nat)
  | arr (l : List IterVal)
deriving DecidableEq, Repr

/-- The iterator data record stored in the `iteratorData` weak map
(line 74): `{type, index, end, slot1, slot2}`. -/
structure IterState where
  type : Nat
  index : Nat
  endB : Nat
  slot1 : IterSlot
  slot2 : IterSlot
deriving DecidableEq, Repr

/-- `createIterator(type, index, end, slot1, slot2)` (lines 71-76): the
stored record is `{type, index: 0, end, slot1, slot2}` — the `index`
parameter is discarded and the cursor always starts at 0. -/
def createIterator (type index endB : Nat) (slot1 slot2 : IterSlot) :
    IterState :=
  { type := type, index := 0, endB := endB, slot1 := slot1, slot2 := slot2 }

/-- JS array read `l[i]`: out-of-range reads give `undefined`. -/
def jsArrGet (l : List IterVal) (i : Nat) : IterVal := (l[i]?).getD .undefined

/-- The body of the iterator `next` method (lines 34-64): when the cursor
has reached `end`, report `done` and release both slots; otherwise
dispatch on `type`, yield, and advance the cursor by one.  `type >= 5`
throws `Error("impossible")`; a slot of the wrong shape would make the
JS body fault with a `TypeError` (no factory ever creates one). -/
def nextBody (d : IterState) : Except JsErr (IterState × Bool × IterVal) :=
  if d.index = d.endB then
    .ok ({ d with slot1 := .undefined, slot2 := .undefined }, true, .undefined)
  else
    match d.type, d.slot1, d.slot2 with
    | 0, .counter c, .arr l =>
      .ok ({ d with slot1 := .counter (c + 1), index := d.index + 1 },
        false, jsArrGet l c)
    | 1, .counter c, _ =>
      .ok ({ d with slot1 := .counter (c + 1), index := d.index + 1 },
        false, .num d.index)
    | 2, .counter c, .arr l =>
      .ok ({ d with slot1 := .counter (c + 1), index := d.index + 1 },
        false, .pair (jsArrGet l c) (.num d.index))
    | 3, .arr l, _ =>
      .ok ({ d with index := d.index + 1 }, false, jsArrGet l d.index)
    | 4, .arr l1, .arr l2 =>
      .ok ({ d with index := d.index + 1 }, false,
        .pair (jsArrGet l1 d.index) (jsArrGet l2 d.index))
    | 0, _, _ | 1, _, _ | 2, _, _ | 3, _, _ | 4, _, _ =>
      .error (.typeError "Cannot read properties of undefined")
    | _, _, _ => .error (.error "impossible")

/-- Calling `iter.next()` on an enum iterator: the method must first be
found on the prototype chain; only then does the line 34-64 body run. -/
def iterNext (d : IterState) : Except JsErr (IterState × Bool × IterVal) :=
  match iterNextLookup with
  | some _ => nextBody d
  | none => .error (.typeError "iter.next is not a function")

/-- The variant metadata store and object heap state: the module-level
weak maps `objectValueMap`, `objectKeyMap`, `objectOwnerMap`
(lines 234-236), plus each object's extensibility bit (`freeze` clears
it; `isExtensible` reads it).  Objects are identified by `Nat` ids;
`nextId` is the allocation counter. -/
structure Store where
  objectValueMap : Nat → Option JsVal
  objectKeyMap : Nat → Option String
  objectOwnerMap : Nat → Option Nat
  extensibleObjs : Nat → Bool
  nextId : Nat

/-- The initial state: empty weak maps, every object extensible. -/
def emptyStore : Store :=
  { objectValueMap := fun _ => none
    objectKeyMap := fun _ => none
    objectOwnerMap := fun _ => none
    extensibleObjs := fun _ => true
    nextId := 0 }

/-- `setValue(key, value)` (lines 289-291): unconditionally
`weakSet(objectValueMap, key, value)` — there is no sealing check. -/
def setValue (st : Store) (key : Nat) (value : JsVal) : Store :=
  { st with objectValueMap := mapSet st.objectValueMap key value }

/-- The `name` getter of `EnumVariantPrototype` (lines 250-258). -/
def variantName (st : Store) (v : Nat) : Except JsErr String :=
  match st.objectKeyMap v with
  | none => .error (.typeError "`this` is not an enum variant!")
  | some k => .ok k

/-- The `parentEnum` getter of `EnumVariantPrototype` (lines 259-271):
`TypeError` when the receiver was never registered, `ReferenceError`
while the owning enum is still extensible (not yet sealed by `freeze`),
and the owner once it is sealed. -/
def variantParentEnum (st : Store) (v : Nat) : Except JsErr Nat :=
  match st.objectOwnerMap v with
  | none => .error (.typeError "`this` is not an enum variant!")
  | some parent =>
    if st.extensibleObjs parent then
      .error (.referenceError "Enum not initialized yet!")
    else .ok parent

/-- The `value` getter of `EnumVariantPrototype` (lines 272-278):
`weakHas(objectValueMap, this)` gates the read, and the failure is the
same `TypeError` as for an object that was never a variant. -/
def variantValue (st : Store) (v : Nat) : Except JsErr JsVal :=
  match st.objectValueMap v with
  | none => .error (.typeError "`this` is not an enum variant!")
  | some x => .ok x

/-- The result of the object-enum construction: the enum object's id, the
created variants' ids in declaration order, and the resulting store. -/
structure ObjEnumResult where
  enumId : Nat
  variantIds : List Nat
  store : Store

/-- The member loop of `initObjectEnum` (lines 339-349): for each key a
fresh frozen variant is created, registered in `objectKeyMap` and
`objectOwnerMap`, and — only when `initValues` is true — given its own
name as value in `objectValueMap`.  `vid` is the id of the next variant
to allocate. -/
def registerLoop (enumId : Nat) (initValues : Bool) :
    List String → Nat → Store → (List Nat × Store)
  | [], _, st => ([], st)
  | key :: rest, vid, st =>
    let st1 : Store :=
      { st with
        objectKeyMap := mapSet st.objectKeyMap vid key
        objectOwnerMap := mapSet st.objectOwnerMap vid enumId
        objectValueMap :=
          if initValues then mapSet st.objectValueMap vid (.str key)
          else st.objectValueMap
        extensibleObjs := fun x => if x = vid then false else st.extensibleObjs x }
    ((vid :: (registerLoop enumId initValues rest (vid + 1) st1).1),
      (registerLoop enumId initValues rest (vid + 1) st1).2)

/-- `initObjectEnum` up to (and excluding) the final `freeze(object)`:
the enum object is allocated extensible and the member loop runs.  The
`installProperties` step at line 337 is modelled separately by
`initEnumInstallBuiltins` (it faults; see the C10 theorem) — this
definition embeds the member registration of lines 339-349 that the
variant-metadata claims are about. -/
def initObjectEnumBuild (initValues : Bool) (keys : List String) (st : Store) :
    ObjEnumResult :=
  let enumId := st.nextId
  let stepped :=
    registerLoop enumId initValues keys (enumId + 1)
      { st with nextId := st.nextId + 1 + keys.length }
  { enumId := enumId, variantIds := stepped.1, store := stepped.2 }

/-- The final `freeze(object)` of `initObjectEnum` (line 351): the enum
object becomes non-extensible — this is the seal `parentEnum` tests. -/
def sealEnum (r : ObjEnumResult) : ObjEnumResult :=
  { r with
    store :=
      { r.store with
        extensibleObjs := fun x =>
          if x = r.enumId then false else r.store.extensibleObjs x } }

/-- `initObjectEnum`'s effect on the metadata store (lines 339-352):
register every member, then seal the enum object. -/
def initObjectEnumCore (initValues : Bool) (keys : List String) (st : Store) :
    ObjEnumResult :=
  sealEnum (initObjectEnumBuild initValues keys st)

/-! ### Lemmas about the map-building loops -/

theorem keyMapAux_append {V : Type} [DecidableEq V] (l₁ l₂ : List V) (i : Nat)
    (m : V → Option Nat) :
    keyMapAux (l₁ ++ l₂) i m = keyMapAux l₂ (i + l₁.length) (keyMapAux l₁ i m) := by
  induction l₁ generalizing i m with
  | nil => simp [keyMapAux]
  | cons v rest ih =>
    simp only [List.cons_append, keyMapAux, List.length_cons]
    rw [show rest.append l₂ = rest ++ l₂ from rfl, ih]
    rw [show i + 1 + rest.length = i + (rest.length + 1) from by omega]

theorem keyMapOf_range (n k : Nat) (hk : k < n) :
    keyMapOf (List.range n) k = some k := by
  induction n with
  | zero => exact absurd hk (by omega)
  | succ n ih =>
    have h : keyMapOf (List.range (n + 1)) =
        mapSet (keyMapOf (List.range n)) n n := by
      rw [keyMapOf, List.range_succ, keyMapAux_append]
      simp [keyMapAux, keyMapOf]
    rw [h, mapSet]
    by_cases hkn : k = n
    · subst hkn; simp
    · simp only [if_neg hkn]
      exact ih (by omega)

theorem keyMapAux_isSome {V : Type} [DecidableEq V] (l : List V) (i : Nat)
    (m : V → Option Nat) (v : V) :
    (keyMapAux l i m v).isSome = true ↔ v ∈ l ∨ (m v).isSome = true := by
  induction l generalizing i m with
  | nil => simp [keyMapAux]
  | cons x rest ih =>
    simp only [keyMapAux, ih, List.mem_cons, mapSet]
    by_cases hvx : v = x
    · subst hvx; simp
    · simp [hvx]

theorem keyMapOf_isSome {V : Type} [DecidableEq V] (l : List V) (v : V) :
    (keyMapOf l v).isSome = true ↔ v ∈ l := by
  rw [keyMapOf, keyMapAux_isSome]
  simp

theorem assignProps_id {κ : Type} [DecidableEq κ] (l : List κ)
    (m : κ → Option κ) (v : κ) :
    assignProps (l.map fun k => (k, k)) m v = if v ∈ l then some v else m v := by
  induction l generalizing m with
  | nil => simp [assignProps]
  | cons x rest ih =>
    simp only [List.map_cons, assignProps, ih, mapSet, List.mem_cons]
    by_cases hvr : v ∈ rest
    · simp [hvr]
    · by_cases hvx : v = x
      · subst hvx; simp [hvr]
      · simp [hvr, hvx]

/-! ### Lemmas about the object-enum construction -/

theorem registerLoop_valueMap_false (enumId : Nat) (keys : List String)
    (vid : Nat) (st : Store) :
    (registerLoop enumId false keys vid st).2.objectValueMap =
      st.objectValueMap := by
  induction keys generalizing vid st with
  | nil => rfl
  | cons key rest ih => simp [registerLoop, ih]

theorem registerLoop_ids (enumId : Nat) (iv : Bool) (keys : List String)
    (vid : Nat) (st : Store) :
    (registerLoop enumId iv keys vid st).1 = List.range' vid keys.length := by
  induction keys generalizing vid st with
  | nil => rfl
  | cons key rest ih => simp [registerLoop, ih, List.range'_succ]

theorem registerLoop_ext (enumId : Nat) (iv : Bool) (keys : List String)
    (vid : Nat) (st : Store) (x : Nat) :
    (registerLoop enumId iv keys vid st).2.extensibleObjs x =
      if vid ≤ x ∧ x < vid + keys.length then false
      else st.extensibleObjs x := by
  induction keys generalizing vid st with
  | nil =>
    rw [registerLoop, if_neg (by simp only [List.length_nil]; omega)]
  | cons key rest ih =>
    simp only [registerLoop, ih, List.length_cons]
    split_ifs <;> first | rfl | omega

theorem initObjectEnumCore_ext (iv : Bool) (keys : List String) (x : Nat) :
    (initObjectEnumCore iv keys emptyStore).store.extensibleObjs x =
      if x ≤ keys.length then false else true := by
  simp only [initObjectEnumCore, sealEnum, initObjectEnumBuild,
    registerLoop_ext, emptyStore]
  split_ifs <;> first | rfl | omega

theorem initObjectEnumCore_ids (iv : Bool) (keys : List String) :
    (initObjectEnumCore iv keys emptyStore).variantIds =
      List.range' 1 keys.length := by
  simp [initObjectEnumCore, sealEnum, initObjectEnumBuild, registerLoop_ids,
    emptyStore]

theorem initObjectEnumCore_valueMap_false (keys : List String) (x : Nat) :
    (initObjectEnumCore false keys emptyStore).store.objectValueMap x = none := by
  simp [initObjectEnumCore, sealEnum, initObjectEnumBuild,
    registerLoop_valueMap_false, emptyStore]

/-! ### Claim theorems -/

/-- C1: the round trip fails.  `initEnum`'s `getKey` reads `keyMap`, the
value→position index (line 131), not `valueMap`, the value→name index
(line 132): for the enum `initEnum("Foo", ["FOO"], ["a"])`, `getKey("a")`
is the position `0`, while the declared name — which `valueMap` holds and
the claim requires — is the string `"FOO"`.  For `initNumberEnum` with
`offset = 1`, member `"A"`'s stored value is `0` (line 229 assigns `i`,
not `i + offset`), and `getKey(0)` reads `keys[-1]`, i.e. `undefined`. -/
theorem initEnum_getKey_returns_position :
    initEnum_getKey [JsVal.str "a"] (JsVal.str "a") = some 0 ∧
    valueMapOf ["FOO"] [JsVal.str "a"] (JsVal.str "a") = some "FOO" ∧
    initNumberEnum_memberValue 0 = 0 ∧
    initNumberEnum_getKey ["A", "B", "C", "D"] 1 (initNumberEnum_memberValue 0) =
      none := by
  refine ⟨by decide, by decide, by norm_num [initNumberEnum_memberValue], ?_⟩
  decide

/-- C2: `compare` does not throw when only the second operand is a
non-member.  In the enum `initEnum("Foo", ["FOO", "BAR"], [10, 20])`,
`compare(10, 99)` returns the number `0` (the guard at line 118 tests
`indexA != null` twice and never checks `indexB`; `indexA - undefined`
is `NaN` and `NaN | 0` is `0`), while `compare(99, 10)` does throw. -/
theorem initEnum_compare_nonmember_returns_zero :
    initEnum_compare [JsVal.num 10, JsVal.num 20] (JsVal.num 10)
      (JsVal.num 99) = .ok 0 ∧
    initEnum_compare [JsVal.num 10, JsVal.num 20] (JsVal.num 99)
      (JsVal.num 10) =
      .error (.error "Both arguments must be members of this enum!") := by
  constructor <;> decide

/-- C3: the iterators cannot yield anything.  Line 33 passes the literal
`false` where `installProperties` expects a key array, so the loop never
runs and `next` is never installed on `EnumIteratorPrototype`; calling
`next()` on any iterator (here the `keys()` iterator of
`initStringEnum("Foo", ["FOO", "BAR"])`) therefore throws a `TypeError`.
Moreover `createIterator` (line 74) stores `index: 0` and discards its
`index` parameter, so `initNumberEnum`'s iterators (which pass
`index = offset`, `end = offset + length`) would traverse `end` items
instead of `length` even if `next` existed. -/
theorem enumIterator_next_missing :
    iterNextLookup = none ∧
    iterNext (createIterator 3 0 2 (.arr [.str "FOO", .str "BAR"]) .undefined) =
      .error (.typeError "iter.next is not a function") ∧
    (createIterator 0 1 5 (.counter 0) (.arr [])).index = 0 :=
  ⟨rfl, rfl, rfl⟩

/-- C4: membership for `initNumberEnum` with `offset = 1` and 4 keys
accepts 1, 2, 3, 4 and rejects 5, −1 and 1.5 as the claim says, but it
also accepts 0: the predicate (lines 201-206) checks only
`value === Math.abs(value | 0) && index < end` and never compares
against the lower bound `offset`. -/
theorem initNumberEnum_hasInstance_eval :
    initNumberEnum_hasInstance 4 1 1 = true ∧
    initNumberEnum_hasInstance 4 1 2 = true ∧
    initNumberEnum_hasInstance 4 1 3 = true ∧
    initNumberEnum_hasInstance 4 1 4 = true ∧
    initNumberEnum_hasInstance 4 1 5 = false ∧
    initNumberEnum_hasInstance 4 1 (-1) = false ∧
    initNumberEnum_hasInstance 4 1 (mkRat 3 2) = false ∧
    initNumberEnum_hasInstance 4 1 0 = true := by
  decide

/-- C10: no factory ever returns an enum object.  Every factory calls
`installProperties(object, builtinProperties, methods)`;
`builtinProperties` (line 92) contains `"prototype"`, but the `methods`
object literal has no `"prototype"` property, so
`getOwnPropertyDescriptor` yields `undefined` and the assignment
`desc.enumerable = false` (line 82) throws a `TypeError` before the
member loop or `freeze` is reached. -/
theorem initEnum_installBuiltins_throws :
    initEnumInstallBuiltins =
      .error (.typeError
        "Cannot set properties of undefined (setting enumerable)") := rfl

theorem enumCompare_eq {α : Type} (lookup : α → Option Nat) (a b : α)
    (ia ib : Nat) (ha : lookup a = some ia) (hb : lookup b = some ib) :
    enumCompare lookup a b =
      .ok (max (-1) (min 1 (int32 ((ia : Int) - (ib : Int))))) := by
  simp [enumCompare, ha, hb, idxSubInt32]

/-- C7 amended: for two members resolved to positions `ia` and `ib`
(positions are array indices, hence at most 2^32 − 2), `compare` always
returns a value in {−1, 0, 1}, returns 0 on equal positions, returns −1
when `ia < ib` with `ib − ia ≤ 2^31`, returns 1 when `ib < ia` with
`ia − ib < 2^31`, and is antisymmetric whenever the position difference
is not exactly ±2^31 — the `a - b | 0` truncation inside the clamp
(line 88) breaks the claimed unconditional ordering for larger gaps. -/
theorem enumCompare_props {α : Type} (lookup : α → Option Nat) (a b : α)
    (ia ib : Nat) (ha : lookup a = some ia) (hb : lookup b = some ib)
    (hia : ia ≤ 2 ^ 32 - 2) (hib : ib ≤ 2 ^ 32 - 2) :
    (∃ c, enumCompare lookup a b = .ok c ∧ (c = -1 ∨ c = 0 ∨ c = 1)) ∧
    (ia = ib → enumCompare lookup a b = .ok 0) ∧
    (ia < ib → ib - ia ≤ 2 ^ 31 → enumCompare lookup a b = .ok (-1)) ∧
    (ib < ia → ia - ib < 2 ^ 31 → enumCompare lookup a b = .ok 1) ∧
    ((ia : Int) - (ib : Int) ≠ 2 ^ 31 → (ib : Int) - (ia : Int) ≠ 2 ^ 31 →
      ∀ c, enumCompare lookup a b = .ok c → enumCompare lookup b a = .ok (-c)) := by
  have hab : enumCompare lookup a b =
      .ok (max (-1) (min 1 (int32 ((ia : Int) - (ib : Int))))) := by
    simp [enumCompare, ha, hb, idxSubInt32]
  have hba : enumCompare lookup b a =
      .ok (max (-1) (min 1 (int32 ((ib : Int) - (ia : Int))))) := by
    simp [enumCompare, ha, hb, idxSubInt32]
  refine ⟨⟨max (-1) (min 1 (int32 ((ia : Int) - (ib : Int)))), hab, ?_⟩,
    ?_, ?_, ?_, ?_⟩
  · simp only [int32, max_def, min_def]
    split_ifs <;> omega
  · intro h
    rw [hab]
    subst h
    congr 1
    simp only [int32, max_def, min_def]
    split_ifs <;> omega
  · intro h1 h2
    rw [hab]
    congr 1
    simp only [int32, max_def, min_def]
    split_ifs <;> omega
  · intro h1 h2
    rw [hab]
    congr 1
    simp only [int32, max_def, min_def]
    split_ifs <;> omega
  · intro hne1 hne2 c hc
    rw [hab] at hc
    rw [hba]
    have hc' : max (-1) (min 1 (int32 ((ia : Int) - (ib : Int)))) = c := by
      injection hc
    subst hc'
    congr 1
    simp only [int32, max_def, min_def]
    split_ifs <;> omega

/-- C7 witness: in the enum `initEnum("Foo", keys, [3, 9])`, the members
3 and 9 sit at positions 0 and 1, and `compare(3, 9)` is −1. -/
theorem enumCompare_props_witness :
    enumCompare (keyMapOf ([3, 9] : List Nat)) 3 9 = .ok (-1) := by
  have h := enumCompare_props (keyMapOf ([3, 9] : List Nat)) 3 9 0 1
    (by decide) (by decide) (by norm_num) (by norm_num)
  exact h.2.2.1 (by norm_num) (by norm_num)

/-- C7 counterexample: the claim fails as stated.  In the value-backed
enum whose values are 0, 1, ..., 2^31 + 1 (so member positions equal
member values), the members at positions i = 0 < j = 2^31 + 1 compare
as `.ok 1`, not `.ok (-1)`: `0 - (2^31 + 1) | 0` wraps to 2^31 − 1,
which clamps to 1. -/
theorem enumCompare_clamp_counterexample :
    keyMapOf (List.range (2 ^ 31 + 2)) 0 = some 0 ∧
    keyMapOf (List.range (2 ^ 31 + 2)) (2 ^ 31 + 1) = some (2 ^ 31 + 1) ∧
    (0 : Nat) < 2 ^ 31 + 1 ∧
    enumCompare (keyMapOf (List.range (2 ^ 31 + 2))) 0 (2 ^ 31 + 1) = .ok 1 := by
  have h0 := keyMapOf_range (2 ^ 31 + 2) 0 (by norm_num)
  have h1 := keyMapOf_range (2 ^ 31 + 2) (2 ^ 31 + 1) (by norm_num)
  refine ⟨h0, h1, by norm_num, ?_⟩
  rw [enumCompare_eq _ _ _ _ _ h0 h1]
  congr 1

/-- C5 counterexample: the claim fails as stated.  After
`initObjectEnum("Foo", true, ["FOO"])` has sealed its enum (the enum
object, id 0, is no longer extensible) the variant `Foo.FOO` (id 1)
holds the value `"FOO"`; calling the library's `setValue` on it
afterwards nevertheless rebinds its stored value to the number 1, which
`Foo.FOO.value` then reports. -/
theorem setValue_mutates_after_sealing :
    (initObjectEnumCore true ["FOO"] emptyStore).store.extensibleObjs
      (initObjectEnumCore true ["FOO"] emptyStore).enumId = false ∧
    variantValue (initObjectEnumCore true ["FOO"] emptyStore).store 1 =
      .ok (.str "FOO") ∧
    variantValue
      (setValue (initObjectEnumCore true ["FOO"] emptyStore).store 1 (.num 1))
      1 = .ok (.num 1) := by
  refine ⟨?_, ?_, ?_⟩ <;> decide

/-- C5 amended: sealing does freeze the structure — once
`initObjectEnum` returns, the enum object and every variant are
non-extensible, and `setValue` can never change a variant's registered
name, its owner, or any object's frozen state; but `setValue` itself
remains effective after sealing and rebinds the targeted variant's
stored value (the construction-window restriction of the spec is not
enforced by the code). -/
theorem sealing_freezes_structure_but_not_values :
    (∀ st k v, (setValue st k v).objectKeyMap = st.objectKeyMap ∧
      (setValue st k v).objectOwnerMap = st.objectOwnerMap ∧
      (setValue st k v).extensibleObjs = st.extensibleObjs) ∧
    (∀ iv keys, (initObjectEnumCore iv keys emptyStore).store.extensibleObjs
      (initObjectEnumCore iv keys emptyStore).enumId = false) ∧
    (∀ iv keys vid, vid ∈ (initObjectEnumCore iv keys emptyStore).variantIds →
      (initObjectEnumCore iv keys emptyStore).store.extensibleObjs vid =
        false) ∧
    (∀ st k v, (setValue st k v).objectValueMap k = some v) := by
  refine ⟨fun st k v => ⟨rfl, rfl, rfl⟩, fun iv keys => ?_, ?_, fun st k v => ?_⟩
  · have he : (initObjectEnumCore iv keys emptyStore).enumId = 0 := by
      simp [initObjectEnumCore, sealEnum, initObjectEnumBuild, emptyStore]
    rw [he, initObjectEnumCore_ext]
    simp
  · intro iv keys vid hmem
    rw [initObjectEnumCore_ids] at hmem
    have hb := List.mem_range'_1.mp hmem
    rw [initObjectEnumCore_ext, if_pos (by omega)]
  · simp [setValue, mapSet]

/-- C5 amended, witness: for `initObjectEnum("Foo", true, ["FOO", "BAR"])`
the variant with id 2 (`Foo.BAR`) is frozen once the factory returns. -/
theorem sealing_freezes_structure_witness :
    (initObjectEnumCore true ["FOO", "BAR"] emptyStore).store.extensibleObjs 2 =
      false :=
  sealing_freezes_structure_but_not_values.2.2.1 true ["FOO", "BAR"] 2
    (by decide)

/-- C6: reading `parentEnum` throws the NotAVariant `TypeError` when the
receiver was never registered in `objectOwnerMap`, throws the
UninitializedEnum `ReferenceError` when the registered owner is still
extensible (not yet sealed), and returns the owner once the owner has
been sealed (frozen). -/
theorem variantParentEnum_spec (st : Store) (v : Nat) :
    (st.objectOwnerMap v = none →
      variantParentEnum st v =
        .error (.typeError "`this` is not an enum variant!")) ∧
    (∀ p, st.objectOwnerMap v = some p → st.extensibleObjs p = true →
      variantParentEnum st v =
        .error (.referenceError "Enum not initialized yet!")) ∧
    (∀ p, st.objectOwnerMap v = some p → st.extensibleObjs p = false →
      variantParentEnum st v = .ok p) := by
  refine ⟨fun h => ?_, fun p h he => ?_, fun p h he => ?_⟩
  · simp [variantParentEnum, h]
  · simp [variantParentEnum, h, he]
  · simp [variantParentEnum, h, he]

/-- C6 witness: with `Foo := initObjectEnum("Foo", true, ["FOO"])`
(enum id 0, variant id 1): an unregistered object (id 99) gets the
`TypeError`; before the final `freeze` the variant gets the
`ReferenceError`; after sealing `parentEnum` returns the enum. -/
theorem variantParentEnum_spec_witness :
    variantParentEnum (initObjectEnumCore true ["FOO"] emptyStore).store 99 =
      .error (.typeError "`this` is not an enum variant!") ∧
    variantParentEnum (initObjectEnumBuild true ["FOO"] emptyStore).store 1 =
      .error (.referenceError "Enum not initialized yet!") ∧
    variantParentEnum (initObjectEnumCore true ["FOO"] emptyStore).store 1 =
      .ok 0 := by
  refine ⟨?_, ?_, ?_⟩
  · exact (variantParentEnum_spec _ 99).1 (by decide)
  · exact (variantParentEnum_spec _ 1).2.1 0 (by decide) (by decide)
  · exact (variantParentEnum_spec _ 1).2.2 0 (by decide) (by decide)

/-- C8: for `initStringEnum`, `getKey(v)` returns `v` itself when `v` is
a member name and `undefined` otherwise, and every member's stored value
is its own name. -/
theorem initStringEnum_getKey_spec (keys : List String) (v : String) :
    (initStringEnum_getKey keys v = if v ∈ keys then some v else none) ∧
    (v ∈ keys → initStringEnum_memberValue keys v = some v) := by
  constructor
  · by_cases h : v ∈ keys
    · simp [initStringEnum_getKey, (keyMapOf_isSome keys v).mpr h, h]
    · have h2 : ¬(keyMapOf keys v).isSome = true := fun hs =>
        h ((keyMapOf_isSome keys v).mp hs)
      simp [initStringEnum_getKey, h2, h]
  · intro h
    rw [initStringEnum_memberValue, assignProps_id, if_pos h]

/-- C8 witness: for the string enum with keys `["FOO", "BAR"]`,
`getKey("FOO")` is `"FOO"`, `getKey("baz")` is `undefined`, and the
member `FOO`'s stored value is `"FOO"`. -/
theorem initStringEnum_getKey_spec_witness :
    initStringEnum_getKey ["FOO", "BAR"] "FOO" = some "FOO" ∧
    initStringEnum_getKey ["FOO", "BAR"] "baz" = none ∧
    initStringEnum_memberValue ["FOO", "BAR"] "FOO" = some "FOO" := by
  refine ⟨?_, ?_, ?_⟩
  · rw [(initStringEnum_getKey_spec ["FOO", "BAR"] "FOO").1]
    decide
  · rw [(initStringEnum_getKey_spec ["FOO", "BAR"] "baz").1]
    decide
  · exact (initStringEnum_getKey_spec ["FOO", "BAR"] "FOO").2 (by decide)

/-- C9: in an object enum built with `initValues = false`, no variant has
an `objectValueMap` entry until `setValue` is called, so reading
`variant.value` throws the `TypeError` "`this` is not an enum variant!" —
the same error an unregistered object gets — instead of returning an
unset marker or `undefined`. -/
theorem initObjectEnum_deferred_value_throws (keys : List String) (vid : Nat)
    (hmem : vid ∈ (initObjectEnumCore false keys emptyStore).variantIds) :
    variantValue (initObjectEnumCore false keys emptyStore).store vid =
      .error (.typeError "`this` is not an enum variant!") := by
  rw [variantValue, initObjectEnumCore_valueMap_false]

/-- C9 witness: the first variant of
`initObjectEnum("Foo", false, ["FOO", "BAR"])` (id 1) throws on `.value`
before any `setValue` call. -/
theorem initObjectEnum_deferred_value_throws_witness :
    variantValue (initObjectEnumCore false ["FOO", "BAR"] emptyStore).store 1 =
      .error (.typeError "`this` is not an enum variant!") :=
  initObjectEnum_deferred_value_throws ["FOO", "BAR"] 1 (by decide)

end EnumProposal
